import Mathlib

/-!
Shallow embedding of src/respond.c (COMP30023 project 2, response module):
write_message, write_content_type, send_http_response and the sendfile body
loop, over an explicit socket-trace state and an I/O oracle that decides the
outcome of each underlying write/sendfile call.
-/

/-- The NUL terminator character of C strings. -/
def nulChar : Char := Char.ofNat 0

/-- The bytes of a C string buffer up to (excluding) the first NUL byte. -/
def cstr (s : List Char) : List Char := s.takeWhile (fun c => c ≠ nulChar)

/-- C strlen: number of bytes before the first NUL. -/
def strlen (s : List Char) : Nat := (cstr s).length

/-- Outcome of one underlying I/O call (write(2) or sendfile(2)): an error,
or readiness of the kernel to accept up to n bytes on this call. -/
inductive IOStep
  | ok (n : Nat)
  | err
deriving DecidableEq

/-- The environment: the outcome of the i-th I/O call made on the socket. -/
abbrev Oracle : Type := Nat → IOStep

/-- State threaded through the embedded code: bytes emitted on the socket so
far, the index of the next I/O call, and how many file descriptors are open. -/
structure St where
  out : List Char
  k : Nat
  openCount : Nat
deriving DecidableEq

/-- Modelled from the spec: respond.h is not under src/; per the spec,
write_message signals failure with a false/sentinel value. -/
def WRITE_ERROR : Bool := false

/-- Modelled from the spec: respond.h is not under src/; per the spec,
write_message signals success with the complementary sentinel. -/
def WRITE_SUCCESSFUL : Bool := true

/-- The write(2) system call on the socket: consults the oracle; on error it
returns -1 and transfers nothing, otherwise it transfers min(n, count) bytes
of the buffer and returns that count. -/
def sys_write (o : Oracle) (s : St) (buf : List Char) (count : Nat) :
    Int × St :=
  match o s.k with
  | IOStep.err => (-1, { s with k := s.k + 1 })
  | IOStep.ok n =>
      (Int.ofNat (min n count),
        { s with out := s.out ++ buf.take (min n count), k := s.k + 1 })

/-- write_message from src/respond.c lines 11-19: one call to write(2) with
count strlen(message); returns WRITE_ERROR iff that call returned a negative
value, WRITE_SUCCESSFUL otherwise. -/
def write_message (o : Oracle) (s : St) (message : List Char) : Bool × St :=
  let r := sys_write o s message (strlen message)
  if r.1 < 0 then (WRITE_ERROR, r.2) else (WRITE_SUCCESSFUL, r.2)

/-- C strrchr on the NUL-terminated view of a buffer: the suffix starting at
the last occurrence of c, if any. -/
def strrchr : List Char → Char → Option (List Char)
  | [], _ => none
  | a :: as, c =>
      match strrchr as c with
      | some r => some r
      | none => if a = c then some (a :: as) else none

/-- Modelled from the spec: respond.h is not under src/; the spec fixes the
extension delimiter as the '.' character. -/
def FILE_EXTENSION_DELIMITER : Char := '.'

/-- Modelled from the spec: respond.h is not under src/; the spec's table
recognizes the .html suffix (delimiter included, case-sensitive). -/
def HTML_EXTENSION : List Char := ".html".toList

/-- Modelled from the spec: respond.h is not under src/; the spec's table
recognizes the .jpg suffix (delimiter included, case-sensitive). -/
def JPEG_EXTENSION : List Char := ".jpg".toList

/-- Modelled from the spec: respond.h is not under src/; the spec's table
recognizes the .js suffix (delimiter included, case-sensitive). -/
def JAVA_SCRIPT_EXTENSION : List Char := ".js".toList

/-- Modelled from the spec: respond.h is not under src/; the spec's table
recognizes the .css suffix (delimiter included, case-sensitive). -/
def CSS_EXTENSION : List Char := ".css".toList

def mimeHtml : List Char := "text/html".toList

def mimeJpeg : List Char := "image/jpeg".toList

def mimeJs : List Char := "text/javascript".toList

def mimeCss : List Char := "text/css".toList

def mimeOctet : List Char := "application/octet-stream".toList

def status200 : List Char := "HTTP/1.0 200 OK\r\n".toList

def contentTypeHeader : List Char := "Content-Type: ".toList

def crlfCrlf : List Char := "\r\n\r\n".toList

def msg404 : List Char := "HTTP/1.0 404 Not Found\r\n\r\n".toList

/-- write_content_type from src/respond.c lines 108-151: strrchr for the last
delimiter, then a strcmp chain over the recognized extensions, writing the
selected MIME string through write_message. -/
def write_content_type (o : Oracle) (s : St) (file_path : List Char) :
    Bool × St :=
  match strrchr (cstr file_path) FILE_EXTENSION_DELIMITER with
  | some extension =>
      if extension = HTML_EXTENSION then write_message o s mimeHtml
      else if extension = JPEG_EXTENSION then write_message o s mimeJpeg
      else if extension = JAVA_SCRIPT_EXTENSION then write_message o s mimeJs
      else if extension = CSS_EXTENSION then write_message o s mimeCss
      else write_message o s mimeOctet
  | none => write_message o s mimeOctet

/-- The MIME string write_content_type selects, as a pure function of the
path (same strrchr/strcmp chain as src/respond.c lines 108-151, with the
write stripped out). -/
def resolve_content_type (file_path : List Char) : List Char :=
  match strrchr (cstr file_path) FILE_EXTENSION_DELIMITER with
  | some extension =>
      if extension = HTML_EXTENSION then mimeHtml
      else if extension = JPEG_EXTENSION then mimeJpeg
      else if extension = JAVA_SCRIPT_EXTENSION then mimeJs
      else if extension = CSS_EXTENSION then mimeCss
      else mimeOctet
  | none => mimeOctet

/-- A filesystem entry as send_http_response distinguishes them: a regular
file with contents, or an openable entry that is not a regular file
(directory, device, socket). -/
inductive FSEntry
  | regular (contents : List Char)
  | notRegular
deriving DecidableEq

/-- Filesystem: association of paths to entries; a path that is absent is one
on which open(2) fails (every open error folded into one outcome). -/
abbrev FS : Type := List (List Char × FSEntry)

def fsLookup : FS → List Char → Option FSEntry
  | [], _ => none
  | (q, e) :: rest, p => if p = q then some e else fsLookup rest p

/-- The sendfile body loop of src/respond.c lines 83-94, fuelled (the C while
loop can spin forever when the kernel keeps transferring 0 bytes, so fuel
bounds the number of iterations modelled).  One iteration: sendfile reads up
to min(n, size - total) bytes from offset total, appends that slice to the
socket, advances the offset variable to total + kk, and then the loop body
adds kk to the same variable once more, exactly as the C code does.  Returns
the final state together with the final value of total_num_bytes_sent. -/
def send_body_loop (o : Oracle) (contents : List Char) :
    Nat → Nat → St → St × Nat
  | 0, total, s => (s, total)
  | fuel + 1, total, s =>
      if total < contents.length then
        match o s.k with
        | IOStep.err => ({ s with k := s.k + 1 }, total)
        | IOStep.ok n =>
            let kk := min n (contents.length - total)
            send_body_loop o contents fuel (total + kk + kk)
              { s with out := s.out ++ (contents.drop total).take kk,
                       k := s.k + 1 }
      else (s, total)

/-- The 200-path of send_http_response after the status line succeeded:
Content-Type header, MIME type, header terminator, body loop
(src/respond.c lines 54-94). -/
def send_after_status (o : Oracle) (s1 : St) (file_path contents : List Char)
    (fuel : Nat) : St :=
  match write_message o s1 contentTypeHeader with
  | (false, s2) => s2
  | (true, s2) =>
      match write_content_type o s2 file_path with
      | (false, s3) => s3
      | (true, s3) =>
          match write_message o s3 crlfCrlf with
          | (false, s4) => s4
          | (true, s4) => (send_body_loop o contents fuel 0 s4).1

/-- The regular-file branch of send_http_response (src/respond.c 47-94). -/
def send_regular (o : Oracle) (s : St) (file_path contents : List Char)
    (fuel : Nat) : St :=
  match write_message o s status200 with
  | (false, s1) => s1
  | (true, s1) => send_after_status o s1 file_path contents fuel

/-- send_http_response from src/respond.c lines 26-104.  open(2) is modelled
by fsLookup (all open failures folded into none); a successful open
allocates a file descriptor which the function, like the C code, never
closes. -/
def send_http_response (fs : FS) (o : Oracle) (s : St)
    (file_path : List Char) (fuel : Nat) : St :=
  match fsLookup fs file_path with
  | none => (write_message o s msg404).2
  | some entry =>
      match entry with
      | FSEntry.regular contents =>
          send_regular o { s with openCount := s.openCount + 1 }
            file_path contents fuel
      | FSEntry.notRegular =>
          (write_message o { s with openCount := s.openCount + 1 } msg404).2

/-- Size of the regular file at a path, 0 for other paths. -/
def sizeAt (fs : FS) (file_path : List Char) : Nat :=
  match fsLookup fs file_path with
  | some (FSEntry.regular contents) => contents.length
  | _ => 0

/-- The full intended wire output for a path: 404 line, or status line,
Content-Type header, MIME type, header terminator and the file bytes. -/
def specResponse (fs : FS) (file_path : List Char) : List Char :=
  match fsLookup fs file_path with
  | some (FSEntry.regular contents) =>
      status200 ++ contentTypeHeader ++ resolve_content_type file_path ++
        crlfCrlf ++ contents
  | _ => msg404

/-- The four header fragments of the 200 path, in emission order. -/
def response_chunks (file_path : List Char) : List (List Char) :=
  [status200, contentTypeHeader, resolve_content_type file_path, crlfCrlf]

/-- Every I/O call succeeds and accepts at least B bytes. -/
def CompleteFor (o : Oracle) (B : Nat) : Prop :=
  ∀ i, ∃ n, o i = IOStep.ok n ∧ B ≤ n

/-- Every I/O call either fails cleanly or accepts at least B bytes. -/
def FullOrErr (o : Oracle) (B : Nat) : Prop :=
  ∀ i, o i = IOStep.err ∨ ∃ n, o i = IOStep.ok n ∧ B ≤ n

theorem wm_err {o : Oracle} {s : St} {m : List Char}
    (h : o s.k = IOStep.err) :
    write_message o s m = (false, { s with k := s.k + 1 }) := by
  simp [write_message, sys_write, h, WRITE_ERROR]

theorem wm_ok_raw {o : Oracle} {s : St} {n : Nat} {m : List Char}
    (h : o s.k = IOStep.ok n) :
    write_message o s m =
      (true, { s with out := s.out ++ m.take (min n (strlen m)),
                      k := s.k + 1 }) := by
  simp [write_message, sys_write, h, WRITE_SUCCESSFUL]

theorem cstr_take (m : List Char) : m.take (strlen m) = cstr m := by
  induction m with
  | nil => rfl
  | cons a as ih =>
      by_cases h : a = nulChar
      · simp [cstr, strlen, List.takeWhile_cons, h]
      · have ih' :
            List.take (List.takeWhile (fun c => !decide (c = nulChar)) as).length
              as = List.takeWhile (fun c => !decide (c = nulChar)) as := by
          simpa [cstr, strlen] using ih
        simp [cstr, strlen, List.takeWhile_cons, h, ih']

theorem wm_ok {o : Oracle} {s : St} {n : Nat} {m : List Char}
    (h : o s.k = IOStep.ok n) (hn : strlen m ≤ n) :
    write_message o s m =
      (true, { s with out := s.out ++ cstr m, k := s.k + 1 }) := by
  rw [wm_ok_raw h, Nat.min_eq_right hn, cstr_take]

theorem wct_eq (o : Oracle) (s : St) (p : List Char) :
    write_content_type o s p = write_message o s (resolve_content_type p) := by
  unfold write_content_type resolve_content_type
  cases strrchr (cstr p) FILE_EXTENSION_DELIMITER
  · rfl
  · dsimp only
    split_ifs <;> rfl

theorem wm_frame (o : Oracle) (s : St) (m : List Char) :
    ∃ t, (write_message o s m).2.out = s.out ++ t ∧
      (write_message o s m).2.openCount = s.openCount ∧
      (write_message o s m).2.k = s.k + 1 := by
  cases h : o s.k with
  | ok n => rw [wm_ok_raw h]; exact ⟨_, rfl, rfl, rfl⟩
  | err => rw [wm_err h]; exact ⟨[], by simp, rfl, rfl⟩

theorem wct_frame (o : Oracle) (s : St) (p : List Char) :
    ∃ t, (write_content_type o s p).2.out = s.out ++ t ∧
      (write_content_type o s p).2.openCount = s.openCount ∧
      (write_content_type o s p).2.k = s.k + 1 := by
  rw [wct_eq]
  exact wm_frame o s (resolve_content_type p)

theorem send_body_loop_frame (o : Oracle) (c : List Char) :
    ∀ fuel total s, ∃ t,
      (send_body_loop o c fuel total s).1.out = s.out ++ t ∧
      (send_body_loop o c fuel total s).1.openCount = s.openCount := by
  intro fuel
  induction fuel with
  | zero =>
      intro total s
      exact ⟨[], by simp [send_body_loop], by simp [send_body_loop]⟩
  | succ f ih =>
      intro total s
      by_cases hlt : total < c.length
      · cases hk : o s.k with
        | err =>
            exact ⟨[], by simp [send_body_loop, hlt, hk],
              by simp [send_body_loop, hlt, hk]⟩
        | ok n =>
            obtain ⟨t, ht, hoc⟩ :=
              ih (total + min n (c.length - total) + min n (c.length - total))
                { s with
                    out := s.out ++
                      (c.drop total).take (min n (c.length - total)),
                    k := s.k + 1 }
            refine ⟨(c.drop total).take (min n (c.length - total)) ++ t, ?_, ?_⟩
            · simp only [send_body_loop, hlt, if_pos, hk]
              rw [ht]
              simp [List.append_assoc]
            · simp only [send_body_loop, hlt, if_pos, hk]
              rw [hoc]
      · exact ⟨[], by simp [send_body_loop, hlt], by simp [send_body_loop, hlt]⟩

theorem send_after_status_frame (o : Oracle) (s1 : St)
    (p c : List Char) (fuel : Nat) :
    ∃ t, (send_after_status o s1 p c fuel).out = s1.out ++ t ∧
      (send_after_status o s1 p c fuel).openCount = s1.openCount := by
  obtain ⟨b2, s2, hw2⟩ :
      ∃ b2 s2, write_message o s1 contentTypeHeader = (b2, s2) := ⟨_, _, rfl⟩
  obtain ⟨t2, h2o, h2c, _⟩ := wm_frame o s1 contentTypeHeader
  rw [hw2] at h2o h2c
  unfold send_after_status
  rw [hw2]
  cases b2 with
  | false => exact ⟨t2, h2o, h2c⟩
  | true =>
      dsimp only
      obtain ⟨b3, s3, hw3⟩ :
          ∃ b3 s3, write_content_type o s2 p = (b3, s3) := ⟨_, _, rfl⟩
      obtain ⟨t3, h3o, h3c, _⟩ := wct_frame o s2 p
      rw [hw3] at h3o h3c
      rw [hw3]
      cases b3 with
      | false => exact ⟨t2 ++ t3, by rw [h3o, h2o, List.append_assoc],
          by rw [h3c, h2c]⟩
      | true =>
          dsimp only
          obtain ⟨b4, s4, hw4⟩ :
              ∃ b4 s4, write_message o s3 crlfCrlf = (b4, s4) := ⟨_, _, rfl⟩
          obtain ⟨t4, h4o, h4c, _⟩ := wm_frame o s3 crlfCrlf
          rw [hw4] at h4o h4c
          rw [hw4]
          cases b4 with
          | false =>
              exact ⟨t2 ++ (t3 ++ t4),
                by rw [h4o, h3o, h2o]; simp [List.append_assoc],
                by rw [h4c, h3c, h2c]⟩
          | true =>
              obtain ⟨t5, h5o, h5c⟩ := send_body_loop_frame o c fuel 0 s4
              exact ⟨t2 ++ (t3 ++ (t4 ++ t5)),
                by rw [h5o, h4o, h3o, h2o]; simp [List.append_assoc],
                by rw [h5c, h4c, h3c, h2c]⟩

theorem send_regular_frame (o : Oracle) (s : St)
    (p c : List Char) (fuel : Nat) :
    ∃ t, (send_regular o s p c fuel).out = s.out ++ t ∧
      (send_regular o s p c fuel).openCount = s.openCount := by
  obtain ⟨b1, s1, hw1⟩ :
      ∃ b1 s1, write_message o s status200 = (b1, s1) := ⟨_, _, rfl⟩
  obtain ⟨t1, h1o, h1c, _⟩ := wm_frame o s status200
  rw [hw1] at h1o h1c
  unfold send_regular
  rw [hw1]
  cases b1 with
  | false => exact ⟨t1, h1o, h1c⟩
  | true =>
      dsimp only
      obtain ⟨t, ho, hc⟩ := send_after_status_frame o s1 p c fuel
      exact ⟨t1 ++ t, by rw [ho, h1o, List.append_assoc], by rw [hc, h1c]⟩

theorem resolve_len (p : List Char) : strlen (resolve_content_type p) ≤ 26 := by
  unfold resolve_content_type
  cases strrchr (cstr p) FILE_EXTENSION_DELIMITER
  · decide
  · dsimp only
    split_ifs <;> decide

theorem cstr_resolve (p : List Char) :
    cstr (resolve_content_type p) = resolve_content_type p := by
  unfold resolve_content_type
  cases strrchr (cstr p) FILE_EXTENSION_DELIMITER
  · decide
  · dsimp only
    split_ifs <;> decide

theorem send_body_loop_complete {o : Oracle} {c : List Char} {s : St} {n : Nat}
    (h : o s.k = IOStep.ok n) (hn : c.length ≤ n) {fuel : Nat}
    (hf : 2 ≤ fuel) :
    (send_body_loop o c fuel 0 s).1.out = s.out ++ c := by
  obtain ⟨f, rfl⟩ : ∃ f, fuel = f + 2 := ⟨fuel - 2, by omega⟩
  by_cases h0 : c.length = 0
  · have hce : c = [] := List.length_eq_zero.mp h0
    subst hce
    simp [send_body_loop]
  · have hpos : 0 < c.length := Nat.pos_of_ne_zero h0
    have hmin : min n c.length = c.length := Nat.min_eq_right hn
    have hnot : ¬ (c.length + c.length < c.length) := by omega
    simp [send_body_loop, h, hpos, hmin, hnot]

theorem send_after_status_complete {o : Oracle} {B : Nat}
    (hc : CompleteFor o B) (hB : 26 ≤ B) (s1 : St) (p c : List Char)
    (hsz : c.length ≤ B) {fuel : Nat} (hf : 2 ≤ fuel) :
    (send_after_status o s1 p c fuel).out =
      s1.out ++ contentTypeHeader ++ resolve_content_type p ++ crlfCrlf ++ c := by
  obtain ⟨out1, k1, oc1⟩ := s1
  obtain ⟨n2, h2, hn2⟩ := hc k1
  have hw2 := @wm_ok o (St.mk out1 k1 oc1) n2 contentTypeHeader h2
    (le_trans (by decide) (hB.trans hn2))
  unfold send_after_status
  rw [hw2]
  dsimp only
  rw [show cstr contentTypeHeader = contentTypeHeader from by decide]
  rw [wct_eq]
  obtain ⟨n3, h3, hn3⟩ := hc (k1 + 1)
  have hw3 := @wm_ok o (St.mk (out1 ++ contentTypeHeader) (k1 + 1) oc1) n3
    (resolve_content_type p) h3 ((resolve_len p).trans (hB.trans hn3))
  rw [hw3]
  dsimp only
  rw [cstr_resolve]
  obtain ⟨n4, h4, hn4⟩ := hc (k1 + 1 + 1)
  have hw4 := @wm_ok o
    (St.mk (out1 ++ contentTypeHeader ++ resolve_content_type p)
      (k1 + 1 + 1) oc1) n4 crlfCrlf h4 (le_trans (by decide) (hB.trans hn4))
  rw [hw4]
  dsimp only
  rw [show cstr crlfCrlf = crlfCrlf from by decide]
  obtain ⟨n5, h5, hn5⟩ := hc (k1 + 1 + 1 + 1)
  rw [@send_body_loop_complete o c
    (St.mk (out1 ++ contentTypeHeader ++ resolve_content_type p ++ crlfCrlf)
      (k1 + 1 + 1 + 1) oc1) n5 h5 (hsz.trans hn5) fuel hf]

theorem send_regular_complete {o : Oracle} {B : Nat}
    (hc : CompleteFor o B) (hB : 26 ≤ B) (s : St) (p c : List Char)
    (hsz : c.length ≤ B) {fuel : Nat} (hf : 2 ≤ fuel) :
    (send_regular o s p c fuel).out =
      s.out ++ status200 ++ contentTypeHeader ++ resolve_content_type p ++
        crlfCrlf ++ c := by
  obtain ⟨out0, k0, oc0⟩ := s
  obtain ⟨n1, h1, hn1⟩ := hc k0
  have hw1 := @wm_ok o (St.mk out0 k0 oc0) n1 status200 h1
    (le_trans (by decide) (hB.trans hn1))
  unfold send_regular
  rw [hw1]
  dsimp only
  rw [show cstr status200 = status200 from by decide]
  rw [send_after_status_complete hc hB
    (St.mk (out0 ++ status200) (k0 + 1) oc0) p c hsz hf]

theorem send_complete {o : Oracle} {B : Nat}
    (hc : CompleteFor o B) (hB : 26 ≤ B) (fs : FS) (s : St) (p : List Char)
    (hsz : sizeAt fs p ≤ B) {fuel : Nat} (hf : 2 ≤ fuel) :
    (send_http_response fs o s p fuel).out = s.out ++ specResponse fs p := by
  cases hfs : fsLookup fs p with
  | none =>
      obtain ⟨n, h, hn⟩ := hc s.k
      unfold send_http_response
      rw [hfs]
      dsimp only
      rw [@wm_ok o s n msg404 h (le_trans (by decide) (hB.trans hn))]
      simp [specResponse, hfs, show cstr msg404 = msg404 from by decide]
  | some e =>
      cases e with
      | notRegular =>
          obtain ⟨n, h, hn⟩ := hc s.k
          unfold send_http_response
          rw [hfs]
          dsimp only
          rw [@wm_ok o (St.mk s.out s.k (s.openCount + 1)) n msg404 h
            (le_trans (by decide) (hB.trans hn))]
          simp [specResponse, hfs, show cstr msg404 = msg404 from by decide]
      | regular c =>
          have hsz' : c.length ≤ B := by simpa [sizeAt, hfs] using hsz
          unfold send_http_response
          rw [hfs]
          dsimp only
          rw [send_regular_complete hc hB
            (St.mk s.out s.k (s.openCount + 1)) p c hsz' hf]
          simp [specResponse, hfs, List.append_assoc]

theorem cstr_of_not_mem : ∀ {p : List Char}, nulChar ∉ p → cstr p = p := by
  intro p
  induction p with
  | nil => intro _; rfl
  | cons a as ih =>
      intro h
      have ha : ¬ (a = nulChar) := fun e => h (e ▸ List.mem_cons_self a as)
      have has : nulChar ∉ as := fun e => h (List.mem_cons_of_mem a e)
      have ih' := ih has
      simp [cstr, List.takeWhile_cons, ha] at ih' ⊢
      exact ih'

theorem strrchr_eq_none {c : Char} :
    ∀ {l : List Char}, c ∉ l → strrchr l c = none := by
  intro l
  induction l with
  | nil => intro _; rfl
  | cons a as ih =>
      intro h
      have ha : ¬ (a = c) := fun e => h (e ▸ List.mem_cons_self a as)
      have has : c ∉ as := fun e => h (List.mem_cons_of_mem a e)
      simp [strrchr, ih has, ha]

theorem strrchr_last {c : Char} :
    ∀ (q t : List Char), c ∉ t → strrchr (q ++ c :: t) c = some (c :: t) := by
  intro q
  induction q with
  | nil =>
      intro t ht
      simp [strrchr, strrchr_eq_none ht]
  | cons a q' ih =>
      intro t ht
      simp [strrchr, ih t ht]

/-- C5: content-type resolution is a pure total function of the path: with no
'.' in the path it yields application/octet-stream; and when the path
decomposes as q ++ '.' :: t with no later '.', the suffix '.'::t is matched
case-sensitively, delimiter included, against .html, .jpg, .js, .css, mapping
to the table entry, every other suffix falling back to
application/octet-stream. -/
theorem resolve_content_type_correct (p : List Char) (hnul : nulChar ∉ p) :
    (FILE_EXTENSION_DELIMITER ∉ p → resolve_content_type p = mimeOctet) ∧
    (∀ t q, p = q ++ FILE_EXTENSION_DELIMITER :: t →
      FILE_EXTENSION_DELIMITER ∉ t →
      resolve_content_type p =
        (if FILE_EXTENSION_DELIMITER :: t = HTML_EXTENSION then mimeHtml
         else if FILE_EXTENSION_DELIMITER :: t = JPEG_EXTENSION then mimeJpeg
         else if FILE_EXTENSION_DELIMITER :: t = JAVA_SCRIPT_EXTENSION then
           mimeJs
         else if FILE_EXTENSION_DELIMITER :: t = CSS_EXTENSION then mimeCss
         else mimeOctet)) := by
  have hcp : cstr p = p := cstr_of_not_mem hnul
  constructor
  · intro hd
    unfold resolve_content_type
    rw [hcp, strrchr_eq_none hd]
  · intro t q hq hd
    unfold resolve_content_type
    rw [hcp, hq, strrchr_last q t hd]

/-- C5 witness: the path a.b.html resolves on its last dot to text/html. -/
theorem resolve_content_type_correct_witness :
    resolve_content_type ("a.b.html".toList) = mimeHtml := by
  have h := (resolve_content_type_correct ("a.b.html".toList) (by decide)).2
    ("html".toList) ("a.b".toList) (by decide) (by decide)
  rw [h]
  decide

/-- C4: for every path on which open fails, and for every path that opens but
is not a regular file, send_http_response emits exactly the fixed 404 message
and nothing else (given that the one write call is accepted in full). -/
theorem send_response_404_exact (fs : FS) (o : Oracle) (s : St)
    (p : List Char) (fuel : Nat) (n : Nat)
    (h404 : fsLookup fs p = none ∨ fsLookup fs p = some FSEntry.notRegular)
    (hok : o s.k = IOStep.ok n) (hn : strlen msg404 ≤ n) :
    (send_http_response fs o s p fuel).out = s.out ++ msg404 := by
  cases h404 with
  | inl h =>
      unfold send_http_response
      rw [h]
      dsimp only
      rw [@wm_ok o s n msg404 hok hn]
      simp [show cstr msg404 = msg404 from by decide]
  | inr h =>
      unfold send_http_response
      rw [h]
      dsimp only
      rw [@wm_ok o (St.mk s.out s.k (s.openCount + 1)) n msg404 hok hn]
      simp [show cstr msg404 = msg404 from by decide]

/-- C4 witness: on an empty filesystem the response is the 404 bytes. -/
theorem send_response_404_exact_witness :
    (send_http_response [] (fun _ => IOStep.ok 100) ⟨[], 0, 0⟩
      ("m.css".toList) 0).out = msg404 := by
  have h := send_response_404_exact [] (fun _ => IOStep.ok 100) ⟨[], 0, 0⟩
    ("m.css".toList) 0 100 (Or.inl rfl) rfl (by decide)
  simpa using h

/-- C7 counterexample: the claim says the opened file descriptor is released
on every exit path; on a successful run over a regular file the count of
open descriptors after the call differs from the count before it. -/
theorem send_response_fd_left_open_cex :
    (send_http_response [("a".toList, FSEntry.regular ("x".toList))]
      (fun _ => IOStep.ok 100) ⟨[], 0, 0⟩ ("a".toList) 10).openCount = 1 ∧
    (send_http_response [("a".toList, FSEntry.regular ("x".toList))]
      (fun _ => IOStep.ok 100) ⟨[], 0, 0⟩ ("a".toList) 10).openCount ≠
      (St.mk [] 0 0).openCount := by
  constructor <;> decide

/-- C7 amended: send_http_response never closes the descriptor it opens: the
open-descriptor count is unchanged when open fails and is one higher than
before on every other path (success, non-regular 404, or mid-stream error). -/
theorem send_response_open_count (fs : FS) (o : Oracle) (s : St)
    (p : List Char) (fuel : Nat) :
    (send_http_response fs o s p fuel).openCount =
      (match fsLookup fs p with
       | none => s.openCount
       | some _ => s.openCount + 1) := by
  cases hfs : fsLookup fs p with
  | none =>
      unfold send_http_response
      rw [hfs]
      dsimp only
      obtain ⟨t, _, hc, _⟩ := wm_frame o s msg404
      exact hc
  | some e =>
      cases e with
      | regular c =>
          unfold send_http_response
          rw [hfs]
          dsimp only
          obtain ⟨t, _, hc⟩ :=
            send_regular_frame o (St.mk s.out s.k (s.openCount + 1)) p c fuel
          exact hc
      | notRegular =>
          unfold send_http_response
          rw [hfs]
          dsimp only
          obtain ⟨t, _, hc, _⟩ :=
            wm_frame o (St.mk s.out s.k (s.openCount + 1)) msg404
          exact hc

/-- C8: with the same filesystem and path, two runs over independent sockets
whose I/O calls all succeed in full produce byte-identical outputs. -/
theorem send_response_deterministic (fs : FS) (p : List Char)
    (o1 o2 : Oracle) (B1 B2 k1 k2 c1 c2 fuel1 fuel2 : Nat)
    (h1 : CompleteFor o1 B1) (h2 : CompleteFor o2 B2)
    (hB1 : 26 ≤ B1) (hB2 : 26 ≤ B2)
    (hs1 : sizeAt fs p ≤ B1) (hs2 : sizeAt fs p ≤ B2)
    (hf1 : 2 ≤ fuel1) (hf2 : 2 ≤ fuel2) :
    (send_http_response fs o1 (St.mk [] k1 c1) p fuel1).out =
      (send_http_response fs o2 (St.mk [] k2 c2) p fuel2).out := by
  rw [send_complete h1 hB1 fs (St.mk [] k1 c1) p hs1 hf1,
      send_complete h2 hB2 fs (St.mk [] k2 c2) p hs2 hf2]

/-- C8 witness: two concrete full-success runs agree byte for byte. -/
theorem send_response_deterministic_witness :
    (send_http_response [("i.html".toList, FSEntry.regular ("x".toList))]
      (fun _ => IOStep.ok 100) (St.mk [] 0 0) ("i.html".toList) 2).out =
    (send_http_response [("i.html".toList, FSEntry.regular ("x".toList))]
      (fun _ => IOStep.ok 50) (St.mk [] 5 7) ("i.html".toList) 3).out := by
  exact send_response_deterministic
    [("i.html".toList, FSEntry.regular ("x".toList))] ("i.html".toList)
    (fun _ => IOStep.ok 100) (fun _ => IOStep.ok 50) 26 26 0 5 0 7 2 3
    (fun i => ⟨100, rfl, by omega⟩) (fun i => ⟨50, rfl, by omega⟩)
    (by omega) (by omega) (by decide) (by decide) (by omega) (by omega)

/-- C10: when each I/O call either fails cleanly or is accepted in full, the
bytes send_http_response emits are empty or begin with exactly the 200 status
line or exactly the 404 message; no other response opening exists. -/
theorem send_response_status_line_first (fs : FS) (o : Oracle) (s : St)
    (p : List Char) (fuel B : Nat) (hB : 26 ≤ B) (h : FullOrErr o B) :
    (send_http_response fs o s p fuel).out = s.out ∨
    (∃ r, (send_http_response fs o s p fuel).out = s.out ++ status200 ++ r) ∨
    (∃ r, (send_http_response fs o s p fuel).out = s.out ++ msg404 ++ r) := by
  cases hfs : fsLookup fs p with
  | none =>
      unfold send_http_response
      rw [hfs]
      dsimp only
      cases h s.k with
      | inl he =>
          rw [wm_err he]
          exact Or.inl rfl
      | inr hok =>
          obtain ⟨n, hn, hBn⟩ := hok
          rw [@wm_ok o s n msg404 hn (le_trans (by decide) (hB.trans hBn))]
          exact Or.inr (Or.inr ⟨[],
            by simp [show cstr msg404 = msg404 from by decide]⟩)
  | some e =>
      cases e with
      | notRegular =>
          unfold send_http_response
          rw [hfs]
          dsimp only
          cases h s.k with
          | inl he =>
              rw [@wm_err o (St.mk s.out s.k (s.openCount + 1)) msg404 he]
              exact Or.inl rfl
          | inr hok =>
              obtain ⟨n, hn, hBn⟩ := hok
              rw [@wm_ok o (St.mk s.out s.k (s.openCount + 1)) n msg404 hn
                (le_trans (by decide) (hB.trans hBn))]
              exact Or.inr (Or.inr ⟨[],
                by simp [show cstr msg404 = msg404 from by decide]⟩)
      | regular c =>
          unfold send_http_response
          rw [hfs]
          dsimp only
          unfold send_regular
          cases h s.k with
          | inl he =>
              rw [@wm_err o (St.mk s.out s.k (s.openCount + 1)) status200 he]
              exact Or.inl rfl
          | inr hok =>
              obtain ⟨n, hn, hBn⟩ := hok
              rw [@wm_ok o (St.mk s.out s.k (s.openCount + 1)) n status200 hn
                (le_trans (by decide) (hB.trans hBn))]
              dsimp only
              rw [show cstr status200 = status200 from by decide]
              obtain ⟨t, ho, _⟩ := send_after_status_frame o
                (St.mk (s.out ++ status200) (s.k + 1) (s.openCount + 1))
                p c fuel
              exact Or.inr (Or.inl ⟨t, by rw [ho]⟩)

/-- C10 witness: a concrete run on an empty filesystem begins with the 404
message. -/
theorem send_response_status_line_first_witness :
    (send_http_response [] (fun _ => IOStep.ok 100) (St.mk [] 0 0)
        ("x".toList) 2).out = (St.mk ([] : List Char) 0 0).out ∨
    (∃ r, (send_http_response [] (fun _ => IOStep.ok 100) (St.mk [] 0 0)
        ("x".toList) 2).out = (St.mk ([] : List Char) 0 0).out ++
          status200 ++ r) ∨
    (∃ r, (send_http_response [] (fun _ => IOStep.ok 100) (St.mk [] 0 0)
        ("x".toList) 2).out = (St.mk ([] : List Char) 0 0).out ++
          msg404 ++ r) := by
  exact send_response_status_line_first [] (fun _ => IOStep.ok 100)
    (St.mk [] 0 0) ("x".toList) 2 26 (by omega)
    (fun i => Or.inr ⟨100, rfl, by omega⟩)

/-- If the first m body-transfer calls succeed (with any byte counts), the
loop is still running after them, and the next call errors, the loop returns
at once: its output is exactly the bytes accumulated by the m transfers and
the call counter stops one past the failing call. -/
theorem send_body_loop_abort (o : Oracle) (c : List Char) :
    ∀ m fuel total s, m < fuel →
      (∀ i, i < m → ∃ n, o (s.k + i) = IOStep.ok n) →
      (send_body_loop o c m total s).2 < c.length →
      o ((send_body_loop o c m total s).1.k) = IOStep.err →
      send_body_loop o c fuel total s =
        (St.mk (send_body_loop o c m total s).1.out
          ((send_body_loop o c m total s).1.k + 1)
          (send_body_loop o c m total s).1.openCount,
          (send_body_loop o c m total s).2) := by
  intro m
  induction m with
  | zero =>
      intro fuel total s hf _ hrun herr
      obtain ⟨f, rfl⟩ : ∃ f, fuel = f + 1 := ⟨fuel - 1, by omega⟩
      have hrun' : total < c.length := hrun
      have herr' : o s.k = IOStep.err := herr
      simp only [send_body_loop]
      rw [if_pos hrun', herr']
  | succ m ih =>
      intro fuel total s hf hok hrun herr
      obtain ⟨f, rfl⟩ : ∃ f, fuel = f + 1 := ⟨fuel - 1, by omega⟩
      obtain ⟨so, sk, soc⟩ := s
      by_cases hlt : total < c.length
      · obtain ⟨n0, h0⟩ := hok 0 (by omega)
        have h0' : o sk = IOStep.ok n0 := h0
        simp only [send_body_loop, if_pos hlt, h0'] at hrun herr ⊢
        refine ih f _ _ (by omega) ?_ hrun herr
        intro i hi
        obtain ⟨n, hn⟩ := hok (i + 1) (by omega)
        refine ⟨n, ?_⟩
        dsimp only
        rw [show sk + 1 + i = sk + (i + 1) from by omega]
        exact hn
      · simp only [send_body_loop, if_neg hlt] at hrun
        exact absurd hrun hlt

/-- C6: whenever an I/O call fails, send_http_response returns immediately,
no bytes are emitted after the failing call, and nothing is retried:
(1) if the 404 write fails on an unopenable or non-regular path, nothing is
emitted; (2) on the regular path, if the j-th header step (status line,
Content-Type header, MIME type through write_content_type, header
terminator) is the first to fail, the output is exactly the j fragments
already emitted; (3) on the regular path with the headers accepted, if the
body-transfer call following m successful (possibly partial) transfers
reports an error, the output is exactly the headers plus the bytes of those
m transfers — the partial body already sent is not recovered or retried —
and the call counter stops one past the failing call. -/
theorem send_response_stops_on_error (fs : FS) (o : Oracle) (s : St)
    (p : List Char) (fuel : Nat) :
    ((fsLookup fs p = none ∨ fsLookup fs p = some FSEntry.notRegular) →
      o s.k = IOStep.err →
      (send_http_response fs o s p fuel).out = s.out ∧
      (send_http_response fs o s p fuel).k = s.k + 1) ∧
    (∀ c j, j < 4 → fsLookup fs p = some (FSEntry.regular c) →
      (∀ i, i < j → ∃ n, o (s.k + i) = IOStep.ok n ∧
        strlen ((response_chunks p).getD i []) ≤ n) →
      o (s.k + j) = IOStep.err →
      (send_http_response fs o s p fuel).out =
        s.out ++ ((response_chunks p).take j).flatten ∧
      (send_http_response fs o s p fuel).k = s.k + j + 1) ∧
    (∀ c m, fsLookup fs p = some (FSEntry.regular c) →
      (∀ i, i < 4 → ∃ n, o (s.k + i) = IOStep.ok n ∧
        strlen ((response_chunks p).getD i []) ≤ n) →
      (∀ i, i < m → ∃ n, o (s.k + 4 + i) = IOStep.ok n) →
      m < fuel →
      (send_body_loop o c m 0 (St.mk (s.out ++ (response_chunks p).flatten)
        (s.k + 4) (s.openCount + 1))).2 < c.length →
      o ((send_body_loop o c m 0
        (St.mk (s.out ++ (response_chunks p).flatten) (s.k + 4)
          (s.openCount + 1))).1.k) = IOStep.err →
      (send_http_response fs o s p fuel).out =
        (send_body_loop o c m 0
          (St.mk (s.out ++ (response_chunks p).flatten) (s.k + 4)
            (s.openCount + 1))).1.out ∧
      (send_http_response fs o s p fuel).k =
        (send_body_loop o c m 0
          (St.mk (s.out ++ (response_chunks p).flatten) (s.k + 4)
            (s.openCount + 1))).1.k + 1) := by
  refine ⟨?_, ?_, ?_⟩
  · intro h404 herr
    cases h404 with
    | inl h =>
        unfold send_http_response
        rw [h]
        dsimp only
        rw [wm_err herr]
        exact ⟨rfl, rfl⟩
    | inr h =>
        unfold send_http_response
        rw [h]
        dsimp only
        rw [@wm_err o (St.mk s.out s.k (s.openCount + 1)) msg404 herr]
        exact ⟨rfl, rfl⟩
  · intro c j hj hreg hok herr
    interval_cases j
    · unfold send_http_response
      rw [hreg]
      dsimp only
      unfold send_regular
      rw [@wm_err o (St.mk s.out s.k (s.openCount + 1)) status200 herr]
      exact ⟨by simp [response_chunks], by simp⟩
    · obtain ⟨n0, h0, hl0⟩ := hok 0 (by omega)
      unfold send_http_response
      rw [hreg]
      dsimp only
      unfold send_regular
      rw [@wm_ok o (St.mk s.out s.k (s.openCount + 1)) n0 status200 h0 hl0]
      dsimp only
      rw [show cstr status200 = status200 from by decide]
      unfold send_after_status
      rw [@wm_err o (St.mk (s.out ++ status200) (s.k + 1) (s.openCount + 1))
        contentTypeHeader herr]
      exact ⟨by simp [response_chunks], by simp⟩
    · obtain ⟨n0, h0, hl0⟩ := hok 0 (by omega)
      obtain ⟨n1, h1, hl1⟩ := hok 1 (by omega)
      unfold send_http_response
      rw [hreg]
      dsimp only
      unfold send_regular
      rw [@wm_ok o (St.mk s.out s.k (s.openCount + 1)) n0 status200 h0 hl0]
      dsimp only
      rw [show cstr status200 = status200 from by decide]
      unfold send_after_status
      rw [@wm_ok o (St.mk (s.out ++ status200) (s.k + 1) (s.openCount + 1))
        n1 contentTypeHeader h1 hl1]
      dsimp only
      rw [show cstr contentTypeHeader = contentTypeHeader from by decide]
      rw [wct_eq]
      have herr' : o (s.k + 1 + 1) = IOStep.err := by
        rw [show s.k + 1 + 1 = s.k + 2 from by omega]
        exact herr
      rw [@wm_err o (St.mk (s.out ++ status200 ++ contentTypeHeader)
        (s.k + 1 + 1) (s.openCount + 1)) (resolve_content_type p) herr']
      exact ⟨by simp [response_chunks, List.append_assoc], by dsimp only⟩
    · obtain ⟨n0, h0, hl0⟩ := hok 0 (by omega)
      obtain ⟨n1, h1, hl1⟩ := hok 1 (by omega)
      obtain ⟨n2, h2, hl2⟩ := hok 2 (by omega)
      unfold send_http_response
      rw [hreg]
      dsimp only
      unfold send_regular
      rw [@wm_ok o (St.mk s.out s.k (s.openCount + 1)) n0 status200 h0 hl0]
      dsimp only
      rw [show cstr status200 = status200 from by decide]
      unfold send_after_status
      rw [@wm_ok o (St.mk (s.out ++ status200) (s.k + 1) (s.openCount + 1))
        n1 contentTypeHeader h1 hl1]
      dsimp only
      rw [show cstr contentTypeHeader = contentTypeHeader from by decide]
      rw [wct_eq]
      have h2' : o (s.k + 1 + 1) = IOStep.ok n2 := by
        rw [show s.k + 1 + 1 = s.k + 2 from by omega]
        exact h2
      rw [@wm_ok o (St.mk (s.out ++ status200 ++ contentTypeHeader)
        (s.k + 1 + 1) (s.openCount + 1)) n2 (resolve_content_type p) h2' hl2]
      dsimp only
      rw [cstr_resolve]
      have herr' : o (s.k + 1 + 1 + 1) = IOStep.err := by
        rw [show s.k + 1 + 1 + 1 = s.k + 3 from by omega]
        exact herr
      rw [@wm_err o (St.mk
        (s.out ++ status200 ++ contentTypeHeader ++ resolve_content_type p)
        (s.k + 1 + 1 + 1) (s.openCount + 1)) crlfCrlf herr']
      exact ⟨by simp [response_chunks, List.append_assoc], by dsimp only⟩
  · intro c m hreg hhead hbody hm hrun herr
    obtain ⟨n0, h0, hl0⟩ := hhead 0 (by omega)
    obtain ⟨n1, h1, hl1⟩ := hhead 1 (by omega)
    obtain ⟨n2, h2, hl2⟩ := hhead 2 (by omega)
    obtain ⟨n3, h3, hl3⟩ := hhead 3 (by omega)
    unfold send_http_response
    rw [hreg]
    dsimp only
    unfold send_regular
    rw [@wm_ok o (St.mk s.out s.k (s.openCount + 1)) n0 status200 h0 hl0]
    dsimp only
    rw [show cstr status200 = status200 from by decide]
    unfold send_after_status
    rw [@wm_ok o (St.mk (s.out ++ status200) (s.k + 1) (s.openCount + 1)) n1
      contentTypeHeader h1 hl1]
    dsimp only
    rw [show cstr contentTypeHeader = contentTypeHeader from by decide]
    rw [wct_eq]
    have h2' : o (s.k + 1 + 1) = IOStep.ok n2 := by
      rw [show s.k + 1 + 1 = s.k + 2 from by omega]
      exact h2
    rw [@wm_ok o (St.mk (s.out ++ status200 ++ contentTypeHeader)
      (s.k + 1 + 1) (s.openCount + 1)) n2 (resolve_content_type p) h2' hl2]
    dsimp only
    rw [cstr_resolve]
    have h3' : o (s.k + 1 + 1 + 1) = IOStep.ok n3 := by
      rw [show s.k + 1 + 1 + 1 = s.k + 3 from by omega]
      exact h3
    rw [@wm_ok o (St.mk
      (s.out ++ status200 ++ contentTypeHeader ++ resolve_content_type p)
      (s.k + 1 + 1 + 1) (s.openCount + 1)) n3 crlfCrlf h3' hl3]
    dsimp only
    rw [show cstr crlfCrlf = crlfCrlf from by decide]
    have hS4 : St.mk
        (s.out ++ status200 ++ contentTypeHeader ++ resolve_content_type p ++
          crlfCrlf) (s.k + 1 + 1 + 1 + 1) (s.openCount + 1) =
        St.mk (s.out ++ (response_chunks p).flatten) (s.k + 4)
          (s.openCount + 1) := by
      simp [response_chunks, List.append_assoc]
    rw [hS4]
    rw [send_body_loop_abort o c m fuel 0
      (St.mk (s.out ++ (response_chunks p).flatten) (s.k + 4)
        (s.openCount + 1)) hm hbody hrun herr]
    exact ⟨rfl, rfl⟩

/-- C6 witness: three concrete failures: a failing 404 write emits nothing;
the third header call failing leaves exactly the status line plus the
Content-Type fragment; and an error at the second body-transfer call, after
a 1-byte partial first transfer of a 3-byte file, leaves exactly the headers
plus that single body byte, with the counter stopped after the failure. -/
theorem send_response_stops_on_error_witness :
    ((send_http_response [] (fun _ => IOStep.err) (St.mk [] 0 0)
        ("x".toList) 5).out = [] ∧
      (send_http_response [] (fun _ => IOStep.err) (St.mk [] 0 0)
        ("x".toList) 5).k = 1) ∧
    ((send_http_response [("f".toList, FSEntry.regular ("ab".toList))]
        (fun i => if i = 2 then IOStep.err else IOStep.ok 100)
        (St.mk [] 0 0) ("f".toList) 5).out =
        [] ++ ((response_chunks ("f".toList)).take 2).flatten ∧
      (send_http_response [("f".toList, FSEntry.regular ("ab".toList))]
        (fun i => if i = 2 then IOStep.err else IOStep.ok 100)
        (St.mk [] 0 0) ("f".toList) 5).k = 0 + 2 + 1) ∧
    ((send_http_response [("f".toList, FSEntry.regular ("abc".toList))]
        (fun i => if i < 4 then IOStep.ok 100
          else if i = 4 then IOStep.ok 1 else IOStep.err)
        (St.mk [] 0 0) ("f".toList) 10).out =
        ("HTTP/1.0 200 OK\r\nContent-Type: application/octet-stream" ++
          "\r\n\r\na").toList ∧
      (send_http_response [("f".toList, FSEntry.regular ("abc".toList))]
        (fun i => if i < 4 then IOStep.ok 100
          else if i = 4 then IOStep.ok 1 else IOStep.err)
        (St.mk [] 0 0) ("f".toList) 10).k = 6) := by
  refine ⟨?_, ?_, ?_⟩
  · exact (send_response_stops_on_error [] (fun _ => IOStep.err)
      (St.mk [] 0 0) ("x".toList) 5).1 (Or.inl rfl) rfl
  · refine (send_response_stops_on_error
      [("f".toList, FSEntry.regular ("ab".toList))]
      (fun i => if i = 2 then IOStep.err else IOStep.ok 100)
      (St.mk [] 0 0) ("f".toList) 5).2.1 ("ab".toList) 2 (by omega) rfl ?_ rfl
    intro i hi
    interval_cases i
    · exact ⟨100, rfl, by decide⟩
    · exact ⟨100, rfl, by decide⟩
  · have h := (send_response_stops_on_error
      [("f".toList, FSEntry.regular ("abc".toList))]
      (fun i => if i < 4 then IOStep.ok 100
        else if i = 4 then IOStep.ok 1 else IOStep.err)
      (St.mk [] 0 0) ("f".toList) 10).2.2 ("abc".toList) 1 rfl
      (by intro i hi; interval_cases i <;> exact ⟨100, rfl, by decide⟩)
      (by intro i hi; interval_cases i; exact ⟨1, rfl⟩)
      (by omega) (by decide) (by decide)
    refine ⟨?_, ?_⟩
    · rw [h.1]
      decide
    · rw [h.2]
      decide

/-- C1: the claim says a 200 response carries exactly the N file bytes; the
body loop double-counts transferred bytes (sendfile advances the offset
variable and the loop adds the count again), so with a 2-byte file and a
first transfer of 1 byte the emitted body is 1 byte, not the file contents:
the code contradicts its own completion comment. -/
theorem send_response_short_transfer_cex :
    (send_http_response [("a.html".toList, FSEntry.regular ("xy".toList))]
      (fun i => if i < 4 then IOStep.ok 100 else IOStep.ok 1)
      (St.mk [] 0 0) ("a.html".toList) 10).out =
      ("HTTP/1.0 200 OK\r\nContent-Type: text/html\r\n\r\nx").toList ∧
    (send_http_response [("a.html".toList, FSEntry.regular ("xy".toList))]
      (fun i => if i < 4 then IOStep.ok 100 else IOStep.ok 1)
      (St.mk [] 0 0) ("a.html".toList) 10).out ≠
      specResponse [("a.html".toList, FSEntry.regular ("xy".toList))]
        ("a.html".toList) := by
  constructor <;> decide

/-- C2: the claim says the loop cursor satisfies sent ≤ total and the loop
exits exactly at sent == total or on error; on a 3-byte file with 1-byte
transfers the cursor ends at 4 > 3 and the loop exits without error having
emitted only 2 of the 3 bytes. -/
theorem send_body_loop_cursor_overshoot_cex :
    (send_body_loop (fun _ => IOStep.ok 1) ("xyz".toList) 10 0
      (St.mk [] 0 0)).2 = 4 ∧
    ("xyz".toList).length = 3 ∧
    (send_body_loop (fun _ => IOStep.ok 1) ("xyz".toList) 10 0
      (St.mk [] 0 0)).1.out.length = 2 := by
  refine ⟨by decide, by decide, by decide⟩

/-- C3 counterexample: when the single underlying write accepts only 1 of 2
bytes, write_message reports success although not all bytes were accepted,
and it issues no further write. -/
theorem write_message_short_write_cex :
    (write_message (fun _ => IOStep.ok 1) (St.mk [] 0 0) ("ab".toList)).1 =
      WRITE_SUCCESSFUL ∧
    (write_message (fun _ => IOStep.ok 1) (St.mk [] 0 0)
      ("ab".toList)).2.out ≠ "ab".toList := by
  constructor <;> decide

/-- C3 amended: write_message issues exactly one underlying write call; it
reports failure iff that single call errors, and on a write that accepts n
bytes it reports success having emitted only the accepted prefix, with no
retry of the remainder. -/
theorem write_message_one_call (o : Oracle) (s : St) (message : List Char) :
    (o s.k = IOStep.err →
      write_message o s message =
        (WRITE_ERROR, St.mk s.out (s.k + 1) s.openCount)) ∧
    (∀ n, o s.k = IOStep.ok n →
      write_message o s message =
        (WRITE_SUCCESSFUL,
          St.mk (s.out ++ message.take (min n (strlen message))) (s.k + 1)
            s.openCount)) := by
  constructor
  · intro h
    rw [wm_err h]
    rfl
  · intro n h
    rw [wm_ok_raw h]
    rfl

/-- C3 amended witness: one failing call, and one 1-of-2-byte call that still
reports success. -/
theorem write_message_one_call_witness :
    write_message (fun _ => IOStep.err) (St.mk [] 0 0) ("ab".toList) =
      (WRITE_ERROR, St.mk [] 1 0) ∧
    write_message (fun _ => IOStep.ok 1) (St.mk [] 0 0) ("ab".toList) =
      (WRITE_SUCCESSFUL, St.mk ("a".toList) 1 0) := by
  constructor
  · exact (write_message_one_call (fun _ => IOStep.err) (St.mk [] 0 0)
      ("ab".toList)).1 rfl
  · have h := (write_message_one_call (fun _ => IOStep.ok 1) (St.mk [] 0 0)
      ("ab".toList)).2 1 rfl
    rw [h]
    decide

/-- C9: write_message sends strlen(message) bytes, so the bytes it emits are
always a prefix of the buffer's content before the first NUL; when the write
is accepted in full exactly those bytes are emitted; and a buffer starting
with NUL (in particular the empty string) yields a zero-length write
reported as success. -/
theorem write_message_nul_truncation (o : Oracle) (s : St)
    (buf : List Char) :
    (∃ t r, cstr buf = t ++ r ∧
      (write_message o s buf).2.out = s.out ++ t) ∧
    (∀ n, o s.k = IOStep.ok n → strlen buf ≤ n →
      (write_message o s buf).2.out = s.out ++ cstr buf) ∧
    (∀ n, o s.k = IOStep.ok n → cstr buf = [] →
      write_message o s buf =
        (WRITE_SUCCESSFUL, St.mk s.out (s.k + 1) s.openCount)) := by
  refine ⟨?_, ?_, ?_⟩
  · cases hk : o s.k with
    | err => exact ⟨[], cstr buf, by simp, by rw [wm_err hk]; simp⟩
    | ok n =>
        refine ⟨buf.take (min n (strlen buf)),
          (cstr buf).drop (min n (strlen buf)), ?_, ?_⟩
        · have hm : min n (strlen buf) ≤ strlen buf := Nat.min_le_right n _
          have ht : buf.take (min n (strlen buf)) =
              (cstr buf).take (min n (strlen buf)) := by
            rw [show (cstr buf).take (min n (strlen buf)) =
                (buf.take (strlen buf)).take (min n (strlen buf)) from by
              rw [cstr_take]]
            rw [List.take_take, Nat.min_eq_left hm]
          rw [ht, List.take_append_drop]
        · rw [wm_ok_raw hk]
  · intro n hk hn
    rw [wm_ok hk hn]
  · intro n hk hcb
    rw [wm_ok_raw hk]
    have h0 : strlen buf = 0 := by simp [strlen, hcb]
    simp [h0, WRITE_SUCCESSFUL]

/-- C9 witness: an interior NUL truncates the write to the bytes before it,
and the empty buffer gives a zero-length write reported as success. -/
theorem write_message_nul_truncation_witness :
    (write_message (fun _ => IOStep.ok 5) (St.mk [] 0 0)
      ['a', nulChar, 'b']).2.out = ['a'] ∧
    write_message (fun _ => IOStep.ok 5) (St.mk [] 0 0) [] =
      (WRITE_SUCCESSFUL, St.mk [] 1 0) := by
  constructor
  · have h := (write_message_nul_truncation (fun _ => IOStep.ok 5)
      (St.mk [] 0 0) ['a', nulChar, 'b']).2.1 5 rfl (by decide)
    rw [h]
    decide
  · exact (write_message_nul_truncation (fun _ => IOStep.ok 5)
      (St.mk [] 0 0) []).2.2 5 rfl rfl
